import Mathlib

/-!
Verification of the voice-chat pipeline (src/tts_processor.py, src/stt_processor.py,
src/llm_processor.py).  Text is modelled as `List Char`; audio samples as `List ℚ`.
All definitions are shallow embeddings of the Python source.
-/

/-- ASCII whitespace recognised by Python's default `str.strip` and the regex
class used in `tts_processor.py` (space, tab, newline, vertical tab, form feed,
carriage return). -/
def isSpaceChar (c : Char) : Bool :=
  c == ' ' || c == '\t' || c == '\n' || c == '\x0b' || c == '\x0c' || c == '\r'

/-- The sentence-terminator class of the regex in
`tts_processor._process_sentence_streaming`: a period, exclamation mark or
question mark. -/
def isTerminator (c : Char) : Bool :=
  c == '.' || c == '!' || c == '?'

/-- Whether the first character of a list is whitespace (lookahead used by the
regex match of a terminator followed by whitespace). -/
def headIsSpace : List Char → Bool
  | [] => false
  | c :: _ => isSpaceChar c

/-- Python `str.strip()`: drop leading and trailing whitespace. -/
def stripChars (s : List Char) : List Char :=
  ((s.dropWhile isSpaceChar).reverse.dropWhile isSpaceChar).reverse

/-- Left-to-right scanner realising Python's
`re.split(r'([.!?]\s+)', s)` with the separator group captured.
`txt` holds the current text piece reversed; `sep` holds the current separator
piece reversed (`sep ≠ []` means we are inside a separator run, i.e. we saw a
terminator followed by whitespace and are consuming the greedy run `\s+`). -/
def splitGo : List Char → List Char → List Char → List (List Char)
  | txt, sep, [] =>
      if sep = [] then [txt.reverse] else [txt.reverse, sep.reverse, []]
  | txt, sep, c :: cs =>
      if sep = [] then
        if isTerminator c && headIsSpace cs then splitGo txt [c] cs
        else splitGo (c :: txt) sep cs
      else
        if isSpaceChar c then splitGo txt (c :: sep) cs
        else
          txt.reverse :: sep.reverse ::
            (if isTerminator c && headIsSpace cs then splitGo [] [c] cs
             else splitGo [c] [] cs)

/-- `re.split(r'([.!?]\s+)', s)`: alternating text and captured separator
pieces, always an odd number of parts, whose concatenation restores `s`. -/
def splitSentences (s : List Char) : List (List Char) :=
  splitGo [] [] s

/-- The pairing loop of `tts_processor._handle_sentence_boundaries`:
`parts[i] + parts[i+1]` for `i = 0, 2, 4, ...` strictly below `len - 1`. -/
def pairUp : List (List Char) → List (List Char)
  | a :: b :: rest => (a ++ b) :: pairUp rest
  | _ => []

/-- Python `parts[-1]` (the last element; `[]` on an empty list, which the
source never hits because `re.split` always returns at least one part). -/
def lastPart : List (List Char) → List Char
  | [] => []
  | [a] => a
  | _ :: rest => lastPart rest

/-- `tts_processor._handle_sentence_boundaries`: enqueue every complete
sentence (pair of text and separator, stripped, skipped when blank) and return
the trailing incomplete part as the new buffer. -/
def handleSentenceBoundaries (parts : List (List Char)) :
    List (List Char) × List Char :=
  (((pairUp parts).map stripChars).filter (fun s => !s.isEmpty), lastPart parts)

/-- The chunk loop of `tts_processor._process_sentence_streaming`: empty chunks
are skipped; otherwise the chunk is appended to the buffer, the buffer is split
at sentence boundaries, and when more than one part appears the complete
sentences are emitted and the remainder kept.  Returns the emitted units and
the final buffer. -/
def sentenceStreamGo : List Char → List (List Char) → List (List Char) × List Char
  | buf, [] => ([], buf)
  | buf, ch :: rest =>
      if ch = [] then sentenceStreamGo buf rest
      else if 1 < (splitSentences (buf ++ ch)).length then
        ((handleSentenceBoundaries (splitSentences (buf ++ ch))).1 ++
            (sentenceStreamGo (handleSentenceBoundaries (splitSentences (buf ++ ch))).2 rest).1,
          (sentenceStreamGo (handleSentenceBoundaries (splitSentences (buf ++ ch))).2 rest).2)
      else sentenceStreamGo (buf ++ ch) rest

/-- `tts_processor._process_sentence_streaming`: the full list of SentenceUnits
enqueued for a fragment sequence, including the final stripped remainder when
it is not blank. -/
def processSentenceStreaming (chunks : List (List Char)) : List (List Char) :=
  let r := sentenceStreamGo [] chunks
  if (stripChars r.2).isEmpty then r.1 else r.1 ++ [stripChars r.2]

/-- `tts_processor._process_full_response`: concatenate every fragment and
enqueue the stripped whole iff it is not blank. -/
def processFullResponse (chunks : List (List Char)) : List (List Char) :=
  if (stripChars chunks.flatten).isEmpty then [] else [stripChars chunks.flatten]

/-- The same chunk loop without stripping or blank-filtering: it emits the raw
segments the streaming splitter cuts the input into.  Used to state what the
streaming mode preserves. -/
def rawStreamGo : List Char → List (List Char) → List (List Char) × List Char
  | buf, [] => ([], buf)
  | buf, ch :: rest =>
      if ch = [] then rawStreamGo buf rest
      else if 1 < (splitSentences (buf ++ ch)).length then
        (pairUp (splitSentences (buf ++ ch)) ++
            (rawStreamGo (lastPart (splitSentences (buf ++ ch))) rest).1,
          (rawStreamGo (lastPart (splitSentences (buf ++ ch))) rest).2)
      else rawStreamGo (buf ++ ch) rest

/-- The ordered contiguous segments the streaming segmenter cuts the input
concatenation into (the trailing buffer included). -/
def rawSegments (chunks : List (List Char)) : List (List Char) :=
  (rawStreamGo [] chunks).1 ++ [(rawStreamGo [] chunks).2]

theorem splitGo_join (l : List Char) : ∀ txt sep : List Char,
    (splitGo txt sep l).flatten = txt.reverse ++ sep.reverse ++ l := by
  induction l with
  | nil =>
      intro txt sep
      by_cases h : sep = [] <;> simp [splitGo, h]
  | cons c cs ih =>
      intro txt sep
      by_cases h : sep = []
      · by_cases ht : (isTerminator c && headIsSpace cs) = true
        · simp [splitGo, h, ht, ih]
        · simp [splitGo, h, ht, ih]
      · by_cases hs : isSpaceChar c = true
        · simp [splitGo, h, hs, ih]
        · by_cases ht : (isTerminator c && headIsSpace cs) = true
          · simp [splitGo, h, hs, ht, ih]
          · simp [splitGo, h, hs, ht, ih]

theorem splitGo_length_odd (l : List Char) : ∀ txt sep : List Char,
    (splitGo txt sep l).length % 2 = 1 := by
  induction l with
  | nil =>
      intro txt sep
      by_cases h : sep = [] <;> simp [splitGo, h]
  | cons c cs ih =>
      intro txt sep
      by_cases h : sep = []
      · by_cases ht : (isTerminator c && headIsSpace cs) = true
        · simp [splitGo, h, ht, ih]
        · simp [splitGo, h, ht, ih]
      · by_cases hs : isSpaceChar c = true
        · simp [splitGo, h, hs, ih]
        · by_cases ht : (isTerminator c && headIsSpace cs) = true
          · simp only [splitGo, h, hs, ht]
            simp [Nat.add_mod, ih]
          · simp only [splitGo, h, hs, ht]
            simp [Nat.add_mod, ih]

theorem lastPart_cons (b : List Char) (rest : List (List Char)) (h : rest ≠ []) :
    lastPart (b :: rest) = lastPart rest := by
  match rest with
  | [] => exact absurd rfl h
  | c :: r2 => rfl

theorem pairUp_join (parts : List (List Char)) (h : parts.length % 2 = 1) :
    (pairUp parts).flatten ++ lastPart parts = parts.flatten := by
  match parts with
  | [] => simp at h
  | [a] => simp [pairUp, lastPart]
  | a :: b :: rest =>
      have hr : rest.length % 2 = 1 := by
        have hlen : (a :: b :: rest).length = rest.length + 2 := by
          simp [List.length_cons]
        rw [hlen] at h
        omega
      have hne : rest ≠ [] := by
        intro he; rw [he] at hr; simp at hr
      have ih := pairUp_join rest hr
      have hl : lastPart (a :: b :: rest) = lastPart rest := by
        have h1 : lastPart (a :: b :: rest) = lastPart (b :: rest) := rfl
        rw [h1, lastPart_cons _ _ hne]
      simp only [pairUp, hl, List.flatten_cons, List.append_assoc]
      rw [ih]

theorem splitSentences_flatten (s : List Char) : (splitSentences s).flatten = s := by
  simpa using splitGo_join s [] []

theorem splitSentences_length_odd (s : List Char) :
    (splitSentences s).length % 2 = 1 :=
  splitGo_length_odd s [] []

theorem rawStreamGo_flatten (chunks : List (List Char)) : ∀ buf : List Char,
    (rawStreamGo buf chunks).1.flatten ++ (rawStreamGo buf chunks).2
      = buf ++ chunks.flatten := by
  induction chunks with
  | nil => intro buf; simp [rawStreamGo]
  | cons ch rest ih =>
      intro buf
      by_cases hch : ch = []
      · rw [rawStreamGo, if_pos hch, ih]
        simp [hch]
      · rw [rawStreamGo, if_neg hch]
        by_cases hp : 1 < (splitSentences (buf ++ ch)).length
        · rw [if_pos hp]
          have hpj := pairUp_join _ (splitSentences_length_odd (buf ++ ch))
          simp only [List.flatten_append, List.append_assoc]
          rw [ih, ← List.append_assoc ((pairUp (splitSentences (buf ++ ch))).flatten),
            hpj, splitSentences_flatten]
          simp
        · rw [if_neg hp, ih]
          simp

theorem sentenceStreamGo_spec (chunks : List (List Char)) : ∀ buf : List Char,
    (sentenceStreamGo buf chunks).1
        = ((rawStreamGo buf chunks).1.map stripChars).filter (fun s => !s.isEmpty)
      ∧ (sentenceStreamGo buf chunks).2 = (rawStreamGo buf chunks).2 := by
  induction chunks with
  | nil => intro buf; simp [sentenceStreamGo, rawStreamGo]
  | cons ch rest ih =>
      intro buf
      by_cases hch : ch = []
      · rw [sentenceStreamGo, rawStreamGo, if_pos hch, if_pos hch]
        exact ih buf
      · rw [sentenceStreamGo, rawStreamGo, if_neg hch, if_neg hch]
        by_cases hp : 1 < (splitSentences (buf ++ ch)).length
        · rw [if_pos hp, if_pos hp]
          constructor
          · simp only [handleSentenceBoundaries, List.map_append, List.filter_append]
            rw [(ih _).1]
          · exact (ih _).2
        · rw [if_neg hp, if_neg hp]
          exact ih (buf ++ ch)

/-- C1 (amended): in sentence-streaming mode the segmenter cuts the input
concatenation into contiguous ordered segments (`rawSegments`) whose
concatenation reproduces the input exactly, and the yielded SentenceUnits are
precisely those segments stripped of leading/trailing whitespace, with
whitespace-only segments omitted.  So no non-whitespace text is dropped,
duplicated, or reordered; only surrounding whitespace is trimmed. -/
theorem c1_segmenter_preserves_text (chunks : List (List Char)) :
    processSentenceStreaming chunks
        = ((rawSegments chunks).map stripChars).filter (fun s => !s.isEmpty)
      ∧ (rawSegments chunks).flatten = chunks.flatten := by
  constructor
  · have h := sentenceStreamGo_spec chunks []
    rw [processSentenceStreaming, rawSegments]
    simp only [List.map_append, List.filter_append, h.1, h.2]
    by_cases he : (stripChars (rawStreamGo [] chunks).2).isEmpty
    · simp [he]
    · simp [he]
  · have h := rawStreamGo_flatten chunks []
    rw [rawSegments]
    simp only [List.flatten_append, List.flatten_cons, List.flatten_nil,
      List.append_nil]
    simpa using h

/-- C1 counterexample: for the single input fragment `"Hello. World"` the
concatenation of the yielded units is `"Hello.World"`, which differs from the
input concatenation `"Hello. World"` — the whitespace of the separator is
stripped, so the claimed exact-concatenation invariant fails. -/
theorem c1_counterexample :
    (processSentenceStreaming ["Hello. World".data]).flatten
      ≠ (["Hello. World".data] : List (List Char)).flatten := by
  decide

/-- C3: on the four documented fragments in sentence-streaming mode the
segmenter yields exactly the two expected SentenceUnits, the second flushed
as the stripped remainder at input exhaustion. -/
theorem c3_streaming_example :
    processSentenceStreaming
        ["Hello, this ".data, "is the first sentence. ".data,
          "And this is the rest ".data, "of the text, all together now!".data]
      = ["Hello, this is the first sentence.".data,
          "And this is the rest of the text, all together now!".data] := by
  decide

/-- Python `re.sub(r'\s+', ' ', s)`: every maximal run of whitespace becomes a
single space. -/
def collapseSpaces : List Char → List Char
  | [] => []
  | [c] => if isSpaceChar c then [' '] else [c]
  | c :: d :: rest =>
      if isSpaceChar c && isSpaceChar d then collapseSpaces (d :: rest)
      else (if isSpaceChar c then ' ' else c) :: collapseSpaces (d :: rest)

/-- Scanner for Python `re.sub` with a non-greedy bracketed pattern such as
`\[.*?\]`: in normal mode (`none`) characters pass through until an opening
bracket; in bracket mode (`some pend`) characters accumulate (reversed, the
opener included) until the nearest closing bracket, which deletes the whole
span; a newline (which `.` cannot match) or the end of input aborts the match
and the pending characters pass through unchanged. -/
def removeBr (opn cls : Char) : List Char → Option (List Char) → List Char
  | [], none => []
  | [], some pend => pend.reverse
  | c :: cs, none =>
      if c = opn then removeBr opn cls cs (some [c])
      else c :: removeBr opn cls cs none
  | c :: cs, some pend =>
      if c = cls then removeBr opn cls cs none
      else if c = '\n' then pend.reverse ++ '\n' :: removeBr opn cls cs none
      else removeBr opn cls cs (some (c :: pend))

/-- Python `re.sub(r'\[.*?\]', '', s)` (and the parenthesis variant): remove
every non-greedy bracketed span. -/
def removeBracketed (opn cls : Char) (s : List Char) : List Char :=
  removeBr opn cls s none

/-- `tts_processor._clean_text_for_tts`: empty text stays empty; otherwise
remove every asterisk and underscore, turn em/en dashes into spaces, collapse
whitespace runs and strip, then delete bracketed `[...]` spans and
parenthesised `(...)` spans. -/
def cleanTextForTTS (text : List Char) : List Char :=
  if text.isEmpty then []
  else
    removeBracketed '(' ')'
      (removeBracketed '[' ']'
        (stripChars
          (collapseSpaces
            ((text.filter (fun c => !(c == '*' || c == '_'))).map
              (fun c => if c == '—' || c == '–' then ' ' else c)))))

/-- C9: the cleaning function maps the two documented inputs to the documented
outputs — markdown asterisks/underscores removed, and the bracketed span
removed after whitespace collapsing, leaving the leading space behind. -/
theorem c9_clean_text :
    cleanTextForTTS "A sentence with *markdown* and _underscores_.".data
        = "A sentence with markdown and underscores.".data
      ∧ cleanTextForTTS "[gone] A normal sentence.".data
        = " A normal sentence.".data := by
  constructor <;> decide

/-- Absolute value used for peak normalisation. -/
def ratAbs (x : ℚ) : ℚ := if x < 0 then -x else x

/-- Maximum of two rationals by explicit comparison. -/
def ratMax (x y : ℚ) : ℚ := if x ≤ y then y else x

/-- `max(abs(audio.max()), abs(audio.min()))` of
`tts_processor._generate_and_play_speech`: the peak amplitude of the samples
(0 for an empty list, which the source guards against). -/
def peakAmp (a : List ℚ) : ℚ :=
  a.foldr (fun x m => ratMax (ratAbs x) m) 0

/-- Peak normalisation of `_generate_and_play_speech`: scale so the peak sits
at 0.7 of full scale, skipped when the peak is zero. -/
def normalizeAudio (a : List ℚ) : List ℚ :=
  if 0 < peakAmp a then a.map (fun x => x / peakAmp a * (7 / 10)) else a

/-- The two external collaborators of the synthesis worker: the speech model
(text to PCM samples, may fail) and the blocking audio-device write (may
fail). -/
structure Collab where
  synth : List Char → Except (List Char) (List ℚ)
  play : List ℚ → Except (List Char) Unit

/-- Observable actions of the synthesis worker thread, in program order. -/
inductive Ev where
  | setFlag : Ev
  | clearFlag : Ev
  | taskDone : Ev
  | played : List ℚ → Ev
  | fallbackPrinted : List Char → Ev
  | emptyNotice : Ev
deriving DecidableEq

/-- `tts_processor._generate_and_play_speech` for one queue item: clean the
text (empty result aborts with a notice); synthesize; empty audio aborts with
a notice; otherwise normalize and play; any synthesis or playback failure is
caught and replaced by the textual fallback that prints the cleaned text. -/
def generateAndPlaySpeech (co : Collab) (text : List Char) : Ev :=
  if (cleanTextForTTS text).isEmpty then Ev.emptyNotice
  else
    match co.synth (cleanTextForTTS text) with
    | Except.error _ => Ev.fallbackPrinted (cleanTextForTTS text)
    | Except.ok audio =>
        if audio.isEmpty then Ev.emptyNotice
        else
          match co.play (normalizeAudio audio) with
          | Except.ok _ => Ev.played (normalizeAudio audio)
          | Except.error _ => Ev.fallbackPrinted (cleanTextForTTS text)

/-- One iteration of `tts_processor._tts_worker` on a dequeued unit: set the
speaking flag, generate and play, clear the flag, then mark the task done
(so `queue.join` can return only after the flag is already clear). -/
def processUnit (co : Collab) (text : List Char) : List Ev :=
  [Ev.setFlag, generateAndPlaySpeech co text, Ev.clearFlag, Ev.taskDone]

/-- The action trace of the single consumer thread of `_tts_worker` draining a
queue of units in FIFO order. -/
def ttsWorkerTrace (co : Collab) (units : List (List Char)) : List Ev :=
  (units.map (processUnit co)).flatten

/-- How one worker action changes the speaking flag
(`_is_speaking_event`). -/
def stepFlag (b : Bool) : Ev → Bool
  | Ev.setFlag => true
  | Ev.clearFlag => false
  | _ => b

/-- The speaking flag after a sequence of worker actions, starting from `b`
(the `threading.Event` starts cleared). -/
def flagAfter (b : Bool) (evs : List Ev) : Bool :=
  evs.foldl stepFlag b

/-- The value the speaking flag must hold at the moment an action occurs:
false when a unit's processing is about to start or has finished (set, done),
true while the unit is rendered and at the clear. -/
def flagDuring : Ev → Bool
  | Ev.setFlag => false
  | Ev.taskDone => false
  | Ev.clearFlag => true
  | _ => true

/-- Decidable check that at every position of the trace the flag (as folded so
far) equals the value `flagDuring` demands for the action at that position. -/
def checkFlagInv : Bool → List Ev → Bool
  | _, [] => true
  | b, e :: rest => (b == flagDuring e) && checkFlagInv (stepFlag b e) rest

theorem generateAndPlaySpeech_cases (co : Collab) (t : List Char) :
    generateAndPlaySpeech co t = Ev.emptyNotice
      ∨ (∃ s, generateAndPlaySpeech co t = Ev.played s)
      ∨ (∃ u, generateAndPlaySpeech co t = Ev.fallbackPrinted u) := by
  unfold generateAndPlaySpeech
  by_cases h1 : (cleanTextForTTS t).isEmpty
  · simp [h1]
  · simp only [h1, if_false, Bool.false_eq_true]
    match co.synth (cleanTextForTTS t) with
    | Except.error e => simp
    | Except.ok audio =>
        by_cases h2 : audio.isEmpty
        · simp [h2]
        · simp only [h2, if_false, Bool.false_eq_true]
          match co.play (normalizeAudio audio) with
          | Except.ok _ => simp
          | Except.error _ => simp

theorem flagDuring_generateAndPlaySpeech (co : Collab) (t : List Char) :
    flagDuring (generateAndPlaySpeech co t) = true := by
  rcases generateAndPlaySpeech_cases co t with h | ⟨s, h⟩ | ⟨u, h⟩ <;>
    rw [h] <;> rfl

theorem stepFlag_generateAndPlaySpeech (co : Collab) (t : List Char) (b : Bool) :
    stepFlag b (generateAndPlaySpeech co t) = b := by
  rcases generateAndPlaySpeech_cases co t with h | ⟨s, h⟩ | ⟨u, h⟩ <;>
    rw [h] <;> rfl

theorem flagAfter_ttsWorkerTrace (co : Collab) (units : List (List Char)) :
    flagAfter false (ttsWorkerTrace co units) = false := by
  induction units with
  | nil => rfl
  | cons u us ih =>
      have h : ttsWorkerTrace co (u :: us)
          = processUnit co u ++ ttsWorkerTrace co us := by
        simp [ttsWorkerTrace]
      rw [h]
      simp only [flagAfter, processUnit, List.foldl_append, List.foldl_cons,
        List.foldl_nil]
      simp only [stepFlag, stepFlag_generateAndPlaySpeech]
      exact ih

theorem checkFlagInv_ttsWorkerTrace (co : Collab) (units : List (List Char)) :
    checkFlagInv false (ttsWorkerTrace co units) = true := by
  induction units with
  | nil => rfl
  | cons u us ih =>
      have h : ttsWorkerTrace co (u :: us)
          = processUnit co u ++ ttsWorkerTrace co us := by
        simp [ttsWorkerTrace]
      rw [h]
      simp only [processUnit, List.cons_append, List.nil_append, checkFlagInv]
      simp only [flagDuring_generateAndPlaySpeech, stepFlag_generateAndPlaySpeech]
      simp [stepFlag, flagDuring, ih]

/-- C5: over the sequential trace of the single consumer thread, for any
collaborators and any non-empty unit sequence, the speaking flag starts false,
is false again once the whole queue has been drained, and at every trace
position holds exactly the value demanded by the action there: false at a
set or a task-done (so it is false whenever `queue.join` can return), true
while a unit is synthesized/rendered (played, fallback, or empty-notice) and
at the clear that ends it. -/
theorem c5_speaking_flag (co : Collab) (units : List (List Char))
    (_h : 0 < units.length) :
    flagAfter false (ttsWorkerTrace co units) = false
      ∧ checkFlagInv false (ttsWorkerTrace co units) = true :=
  ⟨flagAfter_ttsWorkerTrace co units, checkFlagInv_ttsWorkerTrace co units⟩

/-- A collaborator pair whose synthesis and playback always succeed. -/
def okCollab : Collab :=
  { synth := fun _ => Except.ok [1], play := fun _ => Except.ok () }

theorem c5_speaking_flag_witness :
    0 < (["Hi.".data] : List (List Char)).length
      ∧ (flagAfter false (ttsWorkerTrace okCollab ["Hi.".data]) = false
          ∧ checkFlagInv false (ttsWorkerTrace okCollab ["Hi.".data]) = true) :=
  ⟨by decide, c5_speaking_flag okCollab ["Hi.".data] (by decide)⟩

/-- Collaborators that fail synthesis exactly on the second unit's text.
The successful samples are zero-amplitude, so peak normalisation is skipped
(the source skips scaling when the peak is zero) and the trace is exactly
computable. -/
def failCollab : Collab :=
  { synth := fun t =>
      if t = "Unit two.".data then Except.error "boom".data
      else Except.ok [0, 0]
  , play := fun _ => Except.ok () }

/-- The three-unit queue of the injected-failure scenario. -/
def threeUnits : List (List Char) :=
  ["Unit one.".data, "Unit two.".data, "Unit three.".data]

/-- C6: with synthesis failing on unit 2 of 3, the worker's trace shows the
error caught and replaced by the textual fallback printing that unit's
(cleaned) text, the flag set and cleared around every unit including the
failing one, all three units consumed with their task-done marks (so the queue
drains fully), and the flag false at the end. -/
theorem c6_error_recovery :
    ttsWorkerTrace failCollab threeUnits
        = [Ev.setFlag, Ev.played [0, 0], Ev.clearFlag, Ev.taskDone,
            Ev.setFlag, Ev.fallbackPrinted "Unit two.".data, Ev.clearFlag,
            Ev.taskDone,
            Ev.setFlag, Ev.played [0, 0], Ev.clearFlag, Ev.taskDone]
      ∧ flagAfter false (ttsWorkerTrace failCollab threeUnits) = false
      ∧ (ttsWorkerTrace failCollab threeUnits).count Ev.taskDone = 3 := by
  refine ⟨by decide, by decide, by decide⟩

/-- The sample rate of `stt_processor.AudioProcessor` (16 kHz). -/
def sampleRate : ℕ := 16000

/-- The rolling-window cap of `record_with_vad`: `int(self.sample_rate * 5.0)`
samples (5 seconds). -/
def maxBufferSize : ℕ := 5 * sampleRate

/-- `int(self.sample_rate * 0.5)` samples: the trailing half-second window the
voice-activity test runs on. -/
def halfWindow : ℕ := 8000

/-- The silence-count threshold of the finalization check:
`self.silence_duration / 0.1 = 15.0` callback blocks of 0.1 s each
(the comparison in the source is strict). -/
def silenceThreshold : ℕ := 15

/-- The mutable capture state of `stt_processor.record_with_vad`: the audio
buffer (samples), the silence counter, and the `speech_detected` and
`recording` flags.  `recording = true` covers the `Recording` and
`TrailingSilence` states of the design; `Idle` is `recording = false`. -/
structure CaptureState where
  buffer : List ℚ
  silenceCounter : ℕ
  speechDetected : Bool
  recording : Bool
deriving DecidableEq

/-- `audio_callback` of `record_with_vad` for one input block: while the agent
is speaking the frame is discarded outright; otherwise the samples are
appended, the buffer trimmed to its last 5 seconds, and once at least half a
second is buffered the voice-activity test on the trailing half-second window
drives the state: speech restarts recording and zeroes the silence counter,
silence increments the counter only while recording. -/
def audioCallback (vad : List ℚ → Bool) (speaking : Bool) (indata : List ℚ)
    (s : CaptureState) : CaptureState :=
  if speaking then s
  else
    let buf1 := s.buffer ++ indata
    let buf := if maxBufferSize < buf1.length
      then buf1.drop (buf1.length - maxBufferSize) else buf1
    if halfWindow ≤ buf.length then
      if vad (buf.drop (buf.length - halfWindow)) then
        { buffer := buf, silenceCounter := 0, speechDetected := true,
          recording := true }
      else if s.recording then
        { buffer := buf, silenceCounter := s.silenceCounter + 1,
          speechDetected := s.speechDetected, recording := s.recording }
      else
        { buffer := buf, silenceCounter := s.silenceCounter,
          speechDetected := s.speechDetected, recording := s.recording }
    else
      { buffer := buf, silenceCounter := s.silenceCounter,
        speechDetected := s.speechDetected, recording := s.recording }

/-- The finalization condition of the polling loop in `record_with_vad`:
`recording and silence_counter > 15 and len(audio_buffer) > sample_rate and
not is_speaking_callback()` — both numeric comparisons are strict. -/
def finalizeReady (s : CaptureState) (speaking : Bool) : Bool :=
  s.recording && decide (silenceThreshold < s.silenceCounter)
    && decide (sampleRate < s.buffer.length) && !speaking

/-- One pass of the polling loop of `record_with_vad`: when the finalization
condition holds, the full audio buffer is emitted as the Utterance and the
buffer, silence counter and flags are reset (state `Idle`); otherwise nothing
changes. -/
def recordLoopStep (s : CaptureState) (speaking : Bool) :
    Option (List ℚ) × CaptureState :=
  if finalizeReady s speaking then
    (some s.buffer,
      { buffer := [], silenceCounter := 0, speechDetected := false,
        recording := false })
  else (none, s)

/-- C4: while the speaking flag is set, the capture callback discards the
frame and leaves the audio buffer, silence counter and every state flag
untouched, for any frame, any voice-activity collaborator and any prior
state. -/
theorem c4_mic_gating (vad : List ℚ → Bool) (indata : List ℚ)
    (s : CaptureState) :
    audioCallback vad true indata s = s := by
  simp [audioCallback]

/-- C2 (amended): finalization fires when the state is Recording or
TrailingSilence, the silence counter exceeds 15 blocks of 0.1 s (strictly
more than 1.5 s of silence), the buffer holds strictly more than 16000
samples (strictly more than 1.0 s at 16 kHz) and the speaking flag is clear;
it then emits the entire buffer as one Utterance and resets the buffer to
empty, the counter to 0 and the state to Idle. -/
theorem c2_finalization (s : CaptureState) (h1 : s.recording = true)
    (h2 : silenceThreshold < s.silenceCounter)
    (h3 : sampleRate < s.buffer.length) :
    recordLoopStep s false
      = (some s.buffer,
          { buffer := [], silenceCounter := 0, speechDetected := false,
            recording := false }) := by
  simp [recordLoopStep, finalizeReady, h1, h2, h3]

theorem c2_finalization_witness :
    ((⟨List.replicate 16001 0, 16, true, true⟩ : CaptureState).recording = true
        ∧ silenceThreshold
            < (⟨List.replicate 16001 0, 16, true, true⟩ : CaptureState).silenceCounter
        ∧ sampleRate
            < (⟨List.replicate 16001 0, 16, true, true⟩ : CaptureState).buffer.length)
      ∧ recordLoopStep (⟨List.replicate 16001 0, 16, true, true⟩ : CaptureState) false
          = (some (List.replicate 16001 0),
              { buffer := [], silenceCounter := 0, speechDetected := false,
                recording := false }) := by
  refine ⟨⟨rfl, by decide, by simp only [List.length_replicate, sampleRate]; omega⟩, ?_⟩
  exact c2_finalization _ rfl (by decide)
    (by simp only [List.length_replicate, sampleRate]; omega)

/-- C2 counterexample: at exactly the claimed boundary — silence counter 15
(15 blocks of 0.1 s, i.e. exactly 1.5 s of accumulated silence) and a buffer
of exactly 16000 samples (exactly 1.0 s at 16 kHz), in Recording state with
the speaking flag clear — the claim demands finalization, but the source's
strict comparisons (`> 15.0`, `> 16000`) do not fire: no Utterance is
emitted and the state is unchanged. -/
theorem c2_counterexample :
    recordLoopStep (⟨List.replicate 16000 0, 15, true, true⟩ : CaptureState) false
      = (none, (⟨List.replicate 16000 0, 15, true, true⟩ : CaptureState)) := by
  have hfin : finalizeReady
      (⟨List.replicate 16000 0, 15, true, true⟩ : CaptureState) false = false := by
    simp only [finalizeReady, List.length_replicate]
    decide
  rw [recordLoopStep, hfin]
  simp only [Bool.false_eq_true, if_false]

/-- `stt_processor.detect_speech`: the voice-activity collaborator returns
speech timestamps or fails; the wrapper reports speech iff at least one
timestamp came back, and a failure is caught and reported as `false`
("no speech"). -/
def detectSpeech (vadOutcome : Except (List Char) (List (ℕ × ℕ))) : Bool :=
  match vadOutcome with
  | Except.ok stamps => decide (0 < stamps.length)
  | Except.error _ => false

/-- `stt_processor.transcribe_audio`: the recognizer returns a list of segment
texts or fails; the wrapper joins the stripped segment texts with single
spaces and strips the whole, and a failure is caught and reported as the
empty string. -/
def transcribeAudio (asrOutcome : Except (List Char) (List (List Char))) :
    List Char :=
  match asrOutcome with
  | Except.ok segs => stripChars (List.intercalate [' '] (segs.map stripChars))
  | Except.error _ => []

/-- C8: a voice-activity collaborator failure yields `false` ("no speech")
for that window, and a transcription collaborator failure yields the empty
string — both functions are total, so neither failure propagates to the
capture loop. -/
theorem c8_perception_fail_closed (e1 e2 : List Char) :
    detectSpeech (Except.error e1) = false
      ∧ transcribeAudio (Except.error e2) = [] :=
  ⟨rfl, rfl⟩

/-- The literal fallback reply of `llm_processor.generate_response`. -/
def fallbackResponse : List Char :=
  "Hmm, something weird happened in my brain just now. Can you try that again?".data

/-- `LLMProcessor.max_history_pairs`. -/
def maxHistoryPairs : ℕ := 10

/-- Outcome of consuming the reply-model stream inside
`llm_processor.generate_response`: either the full chunk sequence arrives, or
the model fails after yielding a prefix of chunks. -/
inductive StreamOutcome where
  | success : List (List Char) → StreamOutcome
  | failure : List (List Char) → List Char → StreamOutcome

/-- `llm_processor.generate_response` as a function from the stream outcome to
the pair (fragments yielded to the caller, conversation history afterwards).
On success every chunk is yielded, the (prompt, full reply) pair is appended
and the history trimmed to the last 10 pairs; on failure the already-yielded
prefix is followed by the literal fallback fragment and the
(prompt, fallback) pair is appended (the source skips the trim on this
path). -/
def generateResponse (prompt : List Char)
    (history : List (List Char × List Char)) :
    StreamOutcome → List (List Char) × List (List Char × List Char)
  | StreamOutcome.success chunks =>
      (chunks,
        if maxHistoryPairs < (history ++ [(prompt, chunks.flatten)]).length then
          (history ++ [(prompt, chunks.flatten)]).drop
            ((history ++ [(prompt, chunks.flatten)]).length - maxHistoryPairs)
        else history ++ [(prompt, chunks.flatten)])
  | StreamOutcome.failure yielded _ =>
      (yielded ++ [fallbackResponse], history ++ [(prompt, fallbackResponse)])

/-- C7: whenever the reply model fails — in particular before yielding any
fragment — `generate_response` propagates no error: the caller receives the
already-yielded prefix followed by exactly one literal fallback fragment, and
the (prompt, fallback) pair is appended to the conversation history just as a
normal reply's pair would be. -/
theorem c7_generation_fallback (prompt err : List Char)
    (history : List (List Char × List Char)) (yielded : List (List Char)) :
    generateResponse prompt history (StreamOutcome.failure yielded err)
        = (yielded ++ [fallbackResponse], history ++ [(prompt, fallbackResponse)])
      ∧ generateResponse prompt history (StreamOutcome.failure [] err)
        = ([fallbackResponse], history ++ [(prompt, fallbackResponse)]) :=
  ⟨rfl, rfl⟩

theorem space_not_terminator (c : Char) (h : isSpaceChar c = true) :
    isTerminator c = false := by
  simp only [isSpaceChar, Bool.or_eq_true, beq_iff_eq] at h
  rcases h with ((((h | h) | h) | h) | h) | h <;> subst h <;> rfl

theorem splitGo_all_space (l : List Char) : ∀ txt : List Char,
    l.all isSpaceChar = true → splitGo txt [] l = [txt.reverse ++ l] := by
  induction l with
  | nil => intro txt h; simp [splitGo]
  | cons c cs ih =>
      intro txt h
      simp only [List.all_cons, Bool.and_eq_true] at h
      rw [splitGo, if_pos rfl]
      rw [space_not_terminator c h.1]
      simp only [Bool.false_and, Bool.false_eq_true, if_false]
      rw [ih (c :: txt) h.2]
      simp

theorem stripChars_all_space (s : List Char) (h : s.all isSpaceChar = true) :
    stripChars s = [] := by
  have hd : s.dropWhile isSpaceChar = [] := by
    rw [List.dropWhile_eq_nil_iff]
    intro x hx
    exact List.all_eq_true.mp h x hx
  simp [stripChars, hd]

theorem sentenceStreamGo_all_space (chunks : List (List Char)) :
    ∀ buf : List Char, buf.all isSpaceChar = true →
      chunks.flatten.all isSpaceChar = true →
      sentenceStreamGo buf chunks = ([], buf ++ chunks.flatten) := by
  induction chunks with
  | nil => intro buf hb hc; simp [sentenceStreamGo]
  | cons ch rest ih =>
      intro buf hb hc
      simp only [List.flatten_cons, List.all_append, Bool.and_eq_true] at hc
      by_cases hch : ch = []
      · rw [sentenceStreamGo, if_pos hch, ih buf hb hc.2]
        simp [hch]
      · have hbc : (buf ++ ch).all isSpaceChar = true := by
          simp [List.all_append, hb, hc.1]
        have hsplit : splitSentences (buf ++ ch) = [buf ++ ch] := by
          rw [splitSentences, splitGo_all_space (buf ++ ch) [] hbc]
          simp
        rw [sentenceStreamGo, if_neg hch, hsplit]
        simp only [List.length_cons, List.length_nil]
        rw [if_neg (by omega)]
        rw [ih (buf ++ ch) hbc hc.2]
        simp

/-- C10: when the reply fragments concatenate to an empty or whitespace-only
string, neither streaming mode enqueues any SentenceUnit, so the worker trace
is empty — the speaking flag is never set and the queue join returns with
nothing pending. -/
theorem c10_blank_reply (chunks : List (List Char))
    (h : chunks.flatten.all isSpaceChar = true) :
    processSentenceStreaming chunks = []
      ∧ processFullResponse chunks = []
      ∧ ∀ co : Collab, ttsWorkerTrace co (processSentenceStreaming chunks) = [] := by
  have hstream : processSentenceStreaming chunks = [] := by
    rw [processSentenceStreaming]
    rw [sentenceStreamGo_all_space chunks [] rfl h]
    simp only [List.nil_append]
    rw [stripChars_all_space chunks.flatten h]
    simp
  refine ⟨hstream, ?_, ?_⟩
  · rw [processFullResponse, stripChars_all_space chunks.flatten h]
    simp
  · intro co
    rw [hstream]
    rfl

theorem c10_blank_reply_witness :
    (([" ".data, "".data, "\t ".data] : List (List Char)).flatten.all isSpaceChar
        = true)
      ∧ processSentenceStreaming [" ".data, "".data, "\t ".data] = []
      ∧ processFullResponse [" ".data, "".data, "\t ".data] = []
      ∧ ttsWorkerTrace okCollab
          (processSentenceStreaming [" ".data, "".data, "\t ".data]) = [] :=
  ⟨by decide,
    (c10_blank_reply _ (by decide)).1,
    (c10_blank_reply _ (by decide)).2.1,
    (c10_blank_reply _ (by decide)).2.2 okCollab⟩
